import Mathlib

/-!
Shallow embedding of the report lifecycle engine of the brp-reports-server
repository (an Express application, `src/unnamed/part_000`).

The embedding models:
  * JSON scalar request-body values (`JSValue`) together with JavaScript
    truthiness (`jsTruthy`) and number coercion (`toNumber`); JavaScript
    numbers are modelled as `JSNum` (NaN, the two infinities, and finite
    values as rationals — IEEE rounding is not modelled, which is
    irrelevant to the validation logic verified here);
  * the in-memory report store (`reports`, `actionedReports`);
  * the `POST /report` handler (`submitHandler`), the `POST /api/action`
    handler (`actionHandler`), and `GET /api/reports` (`apiReportsHandler`);
  * the fire-and-forget webhook sender `FireWebhook` (`fireWebhook`) and
    the GitHub ban-list synchronizer `addToGitHubBanList`, each over an
    explicit model of the external world's outcome;
  * the credential validator `ValidatePassword`.

External calls made by a handler are recorded in order in a `calls` list;
each recorded call carries an `awaited` flag: `true` when the source
`await`s the promise before continuing (hence before responding), `false`
when the promise is left detached (fire-and-forget).
-/

/-- JavaScript number values: NaN, +Infinity, -Infinity, or a finite value
(modelled as a rational; negative zero and rounding are not modelled). -/
inductive JSNum where
  | nan : JSNum
  | posInf : JSNum
  | negInf : JSNum
  | finite : ℚ → JSNum
deriving DecidableEq

/-- JSON scalar values that can appear as a field of a parsed request body.
`undefined` models an absent field. (Arrays and objects are not modelled;
no claim verified here depends on them.) Note that `JSON.parse` can
produce the number `Infinity` from an overflowing literal such as `1e999`,
so `num JSNum.posInf` is a reachable request-body value. -/
inductive JSValue where
  | undefined : JSValue
  | null : JSValue
  | bool : Bool → JSValue
  | num : JSNum → JSValue
  | str : String → JSValue
deriving DecidableEq

/-- JavaScript truthiness of a value (`!x` in the source is `!(jsTruthy x)`). -/
def jsTruthy : JSValue → Bool
  | .undefined => false
  | .null => false
  | .bool b => b
  | .num .nan => false
  | .num .posInf => true
  | .num .negInf => true
  | .num (.finite q) => decide (q ≠ 0)
  | .str s => decide (s ≠ "")

/-- `typeof v === 'string'`. -/
def isString : JSValue → Bool
  | .str _ => true
  | _ => false

/-- The underlying string of a string value (only used under an
`isString` guard; other cases are unreachable there). -/
def jsStrVal : JSValue → String
  | .str s => s
  | _ => ""

/-- Whitespace for the purposes of JavaScript string trimming and
string-to-number coercion (ASCII whitespace; the full Unicode whitespace
set of the ECMAScript spec is not modelled). -/
def isJsWs (c : Char) : Bool :=
  c == ' ' || c == '\t' || c == '\n' || c == '\r' || c == '\x0b' || c == '\x0c'

/-- `String.prototype.trim`: strip leading and trailing whitespace. -/
def jsTrimStr (s : String) : String :=
  String.mk (((s.toList.dropWhile isJsWs).reverse.dropWhile isJsWs).reverse)

/-- Numeric value of a list of decimal digit characters. -/
def digitsToNat (ds : List Char) : ℕ :=
  ds.foldl (fun a c => a * 10 + (c.toNat - 48)) 0

/-- Optional exponent tail of a decimal literal (`e`/`E`, optional sign,
digits); the whole remaining input must be consumed. -/
def parseExpPart (base : ℚ) : List Char → Option ℚ
  | [] => some base
  | c :: rest =>
    if c = 'e' ∨ c = 'E' then
      let sr : Bool × List Char :=
        match rest with
        | '+' :: t => (false, t)
        | '-' :: t => (true, t)
        | t => (false, t)
      let ds := sr.2.takeWhile Char.isDigit
      let r3 := sr.2.dropWhile Char.isDigit
      if ds = [] ∨ r3 ≠ [] then none
      else some (base * (10 : ℚ) ^ (if sr.1 then -(digitsToNat ds : ℤ) else (digitsToNat ds : ℤ)))
    else none

/-- Unsigned decimal literal: digits, optional fraction, optional
exponent; the whole input must be consumed. -/
def parseUnsignedDec (cs : List Char) : Option ℚ :=
  let ip := cs.takeWhile Char.isDigit
  let r1 := cs.dropWhile Char.isDigit
  match r1 with
  | '.' :: r2 =>
    let fp := r2.takeWhile Char.isDigit
    let r3 := r2.dropWhile Char.isDigit
    if ip = [] ∧ fp = [] then none
    else parseExpPart ((digitsToNat ip : ℚ) + (digitsToNat fp : ℚ) / (10 : ℚ) ^ fp.length) r3
  | _ => if ip = [] then none else parseExpPart (digitsToNat ip) r1

/-- JavaScript `Number(string)` coercion, restricted to the forms relevant
here: whitespace trimming, the empty string (0), optional sign, the
`Infinity` literal, and decimal literals with optional fraction and
exponent. Other numeric forms of the ECMAScript grammar (hex, octal,
binary literals) are mapped to NaN by this model; overflow of a huge
finite literal to Infinity is likewise not modelled. Both sides of every
theorem below use this one function, so these simplifications cannot tilt
a comparison between the code and the spec. -/
def stringToNumber (s : String) : JSNum :=
  let t := jsTrimStr s
  if t = "" then .finite 0
  else
    let sn : Bool × List Char :=
      match t.toList with
      | '-' :: r => (true, r)
      | '+' :: r => (false, r)
      | r => (false, r)
    if sn.2 = "Infinity".toList then (if sn.1 then .negInf else .posInf)
    else
      match parseUnsignedDec sn.2 with
      | some q => .finite (if sn.1 then -q else q)
      | none => .nan

/-- JavaScript number coercion of a request-body value, as performed by
`typeof x === 'number' ? x : Number(x)` in the submit handler (which is
`Number(x)` for every value, since `Number` is the identity on numbers). -/
def toNumber : JSValue → JSNum
  | .undefined => .nan
  | .null => .finite 0
  | .bool b => .finite (if b then 1 else 0)
  | .num n => n
  | .str s => stringToNumber s

/-- `isNaN(toNumber v)` as a Bool. -/
def jsIsNaN (n : JSNum) : Bool :=
  match n with
  | .nan => true
  | _ => false

/-- `Number.isFinite`-style finiteness of a coerced number. -/
def jsIsFinite (n : JSNum) : Bool :=
  match n with
  | .finite _ => true
  | _ => false

/-- Rendering of a number inside a template literal. Faithful for NaN,
the infinities and integers; a non-integral rational is rendered as its
`toString`, standing in for JavaScript's decimal rendering (no verified
statement depends on this case). -/
def numToString : JSNum → String
  | .nan => "NaN"
  | .posInf => "Infinity"
  | .negInf => "-Infinity"
  | .finite q => if q.den = 1 then toString q.num else toString q

/-- A stored report object, as built by the `POST /report` handler.
`actionedAt` is absent (`none`) until the report is actioned. -/
structure Report where
  id : String
  target : JSNum
  reporter : JSNum
  context : String
  reason : String
  timestamp : String
  ip : String
  status : String
  actionedAt : Option String
deriving DecidableEq

/-- The module-level in-memory store: `let reports = []` (pending) and
`let actionedReports = []`. -/
structure ServerState where
  reports : List Report
  actionedReports : List Report
deriving DecidableEq

/-- The configuration values the verified handlers read. -/
structure Config where
  GITHUB_ENABLED : Bool
  GITHUB_TOKEN : String
  REPORTS_WEBHOOK : String
  ACTIONS_WEBHOOK : String
  baseUrl : String
deriving DecidableEq

/-- Whether the module-level `octokit` client is non-null: it is built at
startup exactly when `CONFIG.GITHUB_ENABLED && CONFIG.GITHUB_TOKEN`. -/
def hasOctokit (cfg : Config) : Bool :=
  cfg.GITHUB_ENABLED && decide (cfg.GITHUB_TOKEN ≠ "")

/-- One external call made by a handler, in program order. `awaited` is
`true` when the source `await`s the returned promise before continuing
(so the HTTP response is sent only after the call completes), and `false`
when the promise is left detached (fire-and-forget). -/
inductive Effect where
  | fireWebhookCall (content url : String) (awaited : Bool)
  | syncBanListCall (report : Report) (awaited : Bool)
deriving DecidableEq

/-- Whether a recorded call is a ban-list synchronizer invocation. -/
def Effect.isSyncCall : Effect → Bool
  | .syncBanListCall _ _ => true
  | _ => false

/-- Whether a recorded call is a webhook notification. -/
def Effect.isWebhookCall : Effect → Bool
  | .fireWebhookCall _ _ _ => true
  | _ => false

/-- The `awaited` flag of a recorded call. -/
def Effect.isAwaited : Effect → Bool
  | .fireWebhookCall _ _ a => a
  | .syncBanListCall _ a => a

/-- What a handler produces: the HTTP response value, the store state
after the request, the external calls made (in order, with await mode),
and the diagnostic log lines emitted by the background work. -/
structure HandlerOut (α : Type) where
  response : α
  state : ServerState
  calls : List Effect
  logs : List String
deriving DecidableEq

/-- The outcome of the single outbound `fetch` a webhook delivery makes:
a 2xx response, a non-2xx response (with its error text), or a thrown
error (DNS failure, connection refusal, timeout, invalid or empty URL —
`fetch("")` rejects), carrying the error's name, message and code. -/
inductive FetchOutcome where
  | ok2xx : FetchOutcome
  | non2xx (errText : String) : FetchOutcome
  | throwErr (name msg code : String) : FetchOutcome
deriving DecidableEq

/-- The log lines the `catch` block of `FireWebhook` emits for a thrown
error (the stack-trace line is not modelled). -/
def webhookErrorLogs (name msg code : String) : List String :=
  ["[WEBHOOK] Critical error in sendDiscordWebhook:",
   "[WEBHOOK] Error name: " ++ name,
   "[WEBHOOK] Error message: " ++ msg] ++
  (if code = "ENOTFOUND" then ["[WEBHOOK] Network error - DNS resolution failed"]
   else if code = "ECONNREFUSED" then ["[WEBHOOK] Connection refused by Discord"]
   else if code = "ETIMEDOUT" then ["[WEBHOOK] Request timed out"]
   else [])

/-- The body of `FireWebhook`'s `try` block: delivers the payload and, on
a non-2xx response, logs; a rejected `fetch` surfaces as an exception
(the `.error` case), which only the surrounding `catch` handles. -/
def fireWebhookTry (_content _url : String) (o : FetchOutcome) :
    Except (String × String × String) (List String) :=
  match o with
  | .ok2xx => .ok []
  | .non2xx t => .ok ["[WEBHOOK] Discord API returned error:",
                      "[WEBHOOK] Error response: " ++ t]
  | .throwErr n m c => .error (n, m, c)

/-- `FireWebhook(Content, URL)`: the `try` body with its `catch` applied.
Every thrown error is converted to log lines; the function never
propagates an error to its caller. -/
def fireWebhook (content url : String) (o : FetchOutcome) : List String :=
  match fireWebhookTry content url o with
  | .ok logs => logs
  | .error (n, m, c) => webhookErrorLogs n m c

/-- One entry of the external ban-list document, as built by
`addToGitHubBanList` (field names follow the JSON keys). -/
structure BanEntry where
  target_id : JSNum
  reporter_id : JSNum
  reason : String
  context : String
  date_added : String
  report_id : String
deriving DecidableEq

/-- The external world as seen by one run of the ban-list synchronizer:
the outcome of fetching the document (decoded content and version token
`sha`, or a thrown error such as 404), the outcome of
`JSON.parse(content).banned_users` on that content (`none` models an
absent `banned_users` field), and the outcome of the conditional write
(`createOrUpdateFileContents` with the previously read `sha` as
precondition). -/
structure GitHubEnv where
  getContent : Except String (String × String)
  parseBanned : Except String (Option (List BanEntry))
  putResult : Except String Unit

/-- The inner `try`/`catch` of `addToGitHubBanList`: returns the version
token read (if any), the parsed ban list (empty on any failure or absent
field) and the log lines emitted. When the fetch succeeds the `sha` is
assigned before parsing, so a parse failure still keeps the token. -/
def githubInnerFetch (gh : GitHubEnv) : Option String × List BanEntry × List String :=
  match gh.getContent with
  | .error _ => (none, [], ["File not found, creating..."])
  | .ok (_content, sha) =>
    match gh.parseBanned with
    | .error _ => (some sha, [], ["File not found, creating..."])
    | .ok bu => (some sha, bu.getD [], [])

/-- The ban entry appended for an approved report. -/
def newBanEntry (rd : Report) (now : String) : BanEntry :=
  { target_id := rd.target
    reporter_id := rd.reporter
    reason := rd.reason
    context := rd.context
    date_added := now
    report_id := rd.id }

/-- `addToGitHubBanList(reportData)`: no-op (logged) when the integration
is disabled or no client was built; otherwise read-modify-write of the
external document. Returns the log lines and, when the commit succeeded,
the ban list that was written. Any failure of the commit is caught by the
outer `catch` and logged; the function never propagates an error. -/
def addToGitHubBanList (cfg : Config) (gh : GitHubEnv) (now : String) (rd : Report) :
    List String × Option (List BanEntry) :=
  if !cfg.GITHUB_ENABLED || !hasOctokit cfg then
    (["GitHub integration disabled."], none)
  else
    let inner := githubInnerFetch gh
    let newList := inner.2.1 ++ [newBanEntry rd now]
    match gh.putResult with
    | .ok _ => (inner.2.2, some newList)
    | .error e => (inner.2.2 ++ ["GitHub integration error: " ++ e], none)

/-- HTTP responses of `POST /report`. `thrown` models an exception
escaping the handler (Express then produces a 500, not a handler
response); `badRequest` is the 400 payload's `error` string; `created`
is the 201 payload's `message` and `report_id`. -/
inductive SubmitResult where
  | badRequest (error : String) : SubmitResult
  | created (message : String) (report_id : String) : SubmitResult
  | thrown (msg : String) : SubmitResult
deriving DecidableEq

/-- Whether a submit response is the 400 branch. -/
def SubmitResult.isBadRequest : SubmitResult → Bool
  | .badRequest _ => true
  | _ => false

/-- Whether a submit response is the 201 branch. -/
def SubmitResult.isCreated : SubmitResult → Bool
  | .created _ _ => true
  | _ => false

/-- Whether the handler threw instead of responding. -/
def SubmitResult.isThrown : SubmitResult → Bool
  | .thrown _ => true
  | _ => false

/-- The first validation guard of `POST /report`:
`target === undefined || target === null || reporter === undefined ||
reporter === null || !context`. -/
def submitMissingFields (target reporter context : JSValue) : Prop :=
  target = .undefined ∨ target = .null ∨ reporter = .undefined ∨ reporter = .null ∨
    jsTruthy context = false

instance (target reporter context : JSValue) :
    Decidable (submitMissingFields target reporter context) := by
  unfold submitMissingFields; infer_instance

/-- The second validation guard of `POST /report`:
`isNaN(targetNum) || isNaN(reporterNum) || typeof context !== 'string'`. -/
def submitInvalidTypes (target reporter context : JSValue) : Prop :=
  jsIsNaN (toNumber target) = true ∨ jsIsNaN (toNumber reporter) = true ∨
    isString context = false

instance (target reporter context : JSValue) :
    Decidable (submitInvalidTypes target reporter context) := by
  unfold submitInvalidTypes; infer_instance

/-- The webhook text fired after a successful submission (`n` is the
pending count after the push). -/
def submitWebhookMsg (n : ℕ) (cfg : Config) : String :=
  "**New Report**\n\nTotal pending reports: **" ++ toString n ++
    "**\n\nCheck reports at: " ++ cfg.baseUrl ++ "/reports"

/-- The message of the `TypeError` thrown by `reason.trim()` when
`reason` is not a string. -/
def reasonTrimError (reason : JSValue) : String :=
  match reason with
  | .undefined => "TypeError: Cannot read properties of undefined (reading 'trim')"
  | .null => "TypeError: Cannot read properties of null (reading 'trim')"
  | _ => "TypeError: reason.trim is not a function"

/-- The `POST /report` handler. Inputs: the four body fields, the id the
id generator returned for this request, the creation timestamp `ts`
(`new Date().toISOString()`), the requester address `ip` (`req.ip`), the
configuration, the webhook delivery outcome, and the store state. The
rate limiter runs before this handler and is an external collaborator,
not modelled here. -/
def submitHandler (target reporter context reason : JSValue)
    (newId ts ip : String) (cfg : Config) (wh : FetchOutcome)
    (s : ServerState) : HandlerOut SubmitResult :=
  if submitMissingFields target reporter context then
    { response := .badRequest "Missing required fields: target, reporter, context, reason"
      state := s, calls := [], logs := ["❌ [REPORT] Validation failed - missing fields."] }
  else if submitInvalidTypes target reporter context then
    { response := .badRequest "Invalid field types: target and reporter must be valid numbers, context must be string"
      state := s, calls := [], logs := ["[REPORT] Validation failed - invalid types."] }
  else
    match reason with
    | .str rs =>
      let report : Report :=
        { id := newId
          target := toNumber target
          reporter := toNumber reporter
          context := jsTrimStr (jsStrVal context)
          reason := jsTrimStr rs
          timestamp := ts
          ip := ip
          status := "pending"
          actionedAt := none }
      let reports' := s.reports ++ [report]
      let msg := submitWebhookMsg reports'.length cfg
      { response := .created ("Report " ++ newId ++ " submitted successfully!") newId
        state := { s with reports := reports' }
        calls := [.fireWebhookCall msg cfg.REPORTS_WEBHOOK false]
        logs := fireWebhook msg cfg.REPORTS_WEBHOOK wh }
    | _ =>
      { response := .thrown (reasonTrimError reason)
        state := s, calls := [], logs := [] }

/-- The `GET /api/reports` handler: the report list exposed to readers,
`{ pending: reports, actioned: actionedReports }`. -/
def apiReportsHandler (s : ServerState) : List Report × List Report :=
  (s.reports, s.actionedReports)

/-- HTTP responses of `POST /api/action`. -/
inductive ActionResult where
  | badRequest (error : String) : ActionResult
  | notFound (error : String) : ActionResult
  | ok (message : String) : ActionResult
deriving DecidableEq

/-- `reports.findIndex(r => r.id === reportId)` followed by
`reports.splice(reportIndex, 1)`: the first report whose `id` matches,
together with the list with that one occurrence removed; `none` when no
report matches. -/
def extractById (rid : String) : List Report → Option (Report × List Report)
  | [] => none
  | r :: rest =>
    if r.id = rid then some (r, rest)
    else
      match extractById rid rest with
      | none => none
      | some (x, l) => some (x, r :: l)

/-- Rendering of `report.body` inside the action notification templates.
Report objects carry no `body` property (the submit handler never sets
one), so the property access yields `undefined`, which a template literal
renders as the string `undefined`. -/
def reportBody (_ : Report) : String := "undefined"

/-- The notification text built in the `approved` branch of
`POST /api/action` (source line 1092). -/
def approvedActionMsg (r : Report) : String :=
  "**Approved**\n\n**Body Text: **\"`" ++ reportBody r ++ "`\"\n\n**`Target  : `**[" ++
    numToString r.target ++ "](<https://rugplay.com/user/" ++ numToString r.target ++
    ">)\n**`Reporter: `**[" ++ numToString r.reporter ++
    "](<https://rugplay.com/user/" ++ numToString r.reporter ++ ">)"

/-- The notification text built in the `denied` (else) branch of
`POST /api/action` (source line 1098; the template is character-for-
character the one of the approved branch, still headed `**Approved**`). -/
def deniedActionMsg (r : Report) : String :=
  "**Approved**\n\n**Body Text: **\"`" ++ reportBody r ++ "`\"\n\n**`Target  : `**[" ++
    numToString r.target ++ "](<https://rugplay.com/user/" ++ numToString r.target ++
    ">)\n**`Reporter: `**[" ++ numToString r.reporter ++
    "](<https://rugplay.com/user/" ++ numToString r.reporter ++ ">)"

/-- The `POST /api/action` handler. Inputs: the two body fields, the
action timestamp `now`, the configuration, the outcomes of the external
webhook delivery and GitHub round trip, and the store state. In the
source the webhook promise is left detached (`awaited := false`) while
`addToGitHubBanList` is `await`ed (`awaited := true`) before `res.json`
runs. -/
def actionHandler (reportId action : JSValue) (now : String) (cfg : Config)
    (wh : FetchOutcome) (gh : GitHubEnv) (s : ServerState) : HandlerOut ActionResult :=
  if jsTruthy reportId = false ∨ jsTruthy action = false ∨
      (action ≠ JSValue.str "approved" ∧ action ≠ JSValue.str "denied") then
    { response := .badRequest "Invalid action or report ID!", state := s, calls := [], logs := [] }
  else
    match reportId with
    | .str rid =>
      match extractById rid s.reports with
      | none =>
        { response := .notFound "Report not found!", state := s, calls := [], logs := [] }
      | some (r, rest) =>
        let decision := jsStrVal action
        let r' : Report := { r with status := decision, actionedAt := some now }
        let s' : ServerState :=
          { reports := rest, actionedReports := s.actionedReports ++ [r'] }
        if decision = "approved" then
          { response := .ok ("Report " ++ decision ++ " successfull!")
            state := s'
            calls := [.fireWebhookCall (approvedActionMsg r') cfg.ACTIONS_WEBHOOK false,
                      .syncBanListCall r' true]
            logs := fireWebhook (approvedActionMsg r') cfg.ACTIONS_WEBHOOK wh ++
                      (addToGitHubBanList cfg gh now r').1 }
        else
          { response := .ok ("Report " ++ decision ++ " successfull!")
            state := s'
            calls := [.fireWebhookCall (deniedActionMsg r') cfg.ACTIONS_WEBHOOK false]
            logs := fireWebhook (deniedActionMsg r') cfg.ACTIONS_WEBHOOK wh }
    | _ =>
      { response := .notFound "Report not found!", state := s, calls := [], logs := [] }

/-- `ValidatePassword`'s comparison loop: try each hash in order with
`bcrypt.compare` (modelled by the `compare` argument, which may fail with
an error — caught and logged in the source); return on the first match.
The second component counts the comparisons attempted. -/
def tryHashes (compare : String → String → Except String Bool) (password : String) :
    List String → Bool × ℕ
  | [] => (false, 0)
  | h :: t =>
    match compare password h with
    | .ok true => (true, 1)
    | _ =>
      let rec' := tryHashes compare password t
      (rec'.1, rec'.2 + 1)

/-- `String.prototype.split(';')` over the character list (`acc` holds the
current piece, reversed): `"a;;b"` splits to `["a", "", "b"]` and `""`
splits to `[""]`, as in JavaScript. -/
def splitSemi (acc : List Char) : List Char → List String
  | [] => [String.mk acc.reverse]
  | c :: rest =>
    if c = ';' then String.mk acc.reverse :: splitSemi [] rest
    else splitSemi (c :: acc) rest

/-- The hash list `ValidatePassword` derives from the `LOGIN_HASHES`
configuration string: split on `;`, trim each piece, drop empties. -/
def parsedHashes : Option String → List String
  | none => []
  | some s => ((splitSemi [] s.toList).map jsTrimStr).filter (fun h => h.length > 0)

/-- `ValidatePassword(password)`. `loginHashes` models
`process.env.LOGIN_HASHES` (`none` = unset); the unset and empty-string
cases fail the `!loginHashes` truthiness check before any splitting.
Returns the boolean outcome and the number of hash comparisons
attempted. -/
def ValidatePassword (loginHashes : Option String)
    (compare : String → String → Except String Bool) (password : String) : Bool × ℕ :=
  match loginHashes with
  | none => (false, 0)
  | some s =>
    if s = "" then (false, 0)
    else
      let hashes := parsedHashes (some s)
      if hashes.isEmpty then (false, 0)
      else tryHashes compare password hashes

/-- Lowercase hex digit for `n % 16`, as used by `toString('hex')`. -/
def hexDigitChar (n : ℕ) : Char :=
  match n % 16 with
  | 0 => '0' | 1 => '1' | 2 => '2' | 3 => '3' | 4 => '4' | 5 => '5' | 6 => '6' | 7 => '7'
  | 8 => '8' | 9 => '9' | 10 => 'a' | 11 => 'b' | 12 => 'c' | 13 => 'd' | 14 => 'e'
  | _ => 'f'

/-- The two lowercase hex characters rendering one byte. -/
def byteToHexChars (b : ℕ) : List Char :=
  [hexDigitChar (b / 16), hexDigitChar b]

/-- `generateReportId`: `crypto.randomBytes(8).toString('hex')`. The
randomness is an input: the byte values drawn for this request. -/
def generateReportId (bytes : List ℕ) : String :=
  String.mk ((bytes.map byteToHexChars).flatten)

/-- The sixteen lowercase hexadecimal characters. -/
def hexCharsList : List Char :=
  "0123456789abcdef".toList

/-- The per-request state-transition relation of the store: one
`POST /report` or one `POST /api/action`, with arbitrary request bodies,
timestamps, generated ids and external-world outcomes. -/
inductive Step (cfg : Config) : ServerState → ServerState → Prop where
  | submit (target reporter context reason : JSValue) (newId ts ip : String)
      (wh : FetchOutcome) (s : ServerState) :
      Step cfg s (submitHandler target reporter context reason newId ts ip cfg wh s).state
  | act (reportId action : JSValue) (now : String) (wh : FetchOutcome)
      (gh : GitHubEnv) (s : ServerState) :
      Step cfg s (actionHandler reportId action now cfg wh gh s).state

/-- States reachable from the empty store by any sequence of submit and
action requests. -/
inductive Reachable (cfg : Config) : ServerState → Prop where
  | init : Reachable cfg ⟨[], []⟩
  | step {s s' : ServerState} : Reachable cfg s → Step cfg s s' → Reachable cfg s'

/-- The store invariant: every pending report is untouched
(`status = "pending"`, no action timestamp); every actioned report has a
terminal status and a populated action timestamp. -/
def StoreInv (s : ServerState) : Prop :=
  (∀ r ∈ s.reports, r.status = "pending" ∧ r.actionedAt = none) ∧
  (∀ r ∈ s.actionedReports, r.status ≠ "pending" ∧ r.actionedAt ≠ none)

lemma hexDigitChar_mem (n : ℕ) : hexDigitChar n ∈ hexCharsList := by
  unfold hexDigitChar
  split <;> decide

lemma flatten_hex_length (bytes : List ℕ) :
    ((bytes.map byteToHexChars).flatten).length = 2 * bytes.length := by
  induction bytes with
  | nil => rfl
  | cons b t ih =>
    simp only [List.map_cons, List.flatten_cons, List.length_append, byteToHexChars,
      List.length_cons, List.length_nil, ih, List.length_cons]
    omega

lemma generateReportId_length (bytes : List ℕ) :
    (generateReportId bytes).length = 2 * bytes.length := by
  unfold generateReportId
  exact flatten_hex_length bytes

lemma generateReportId_hex (bytes : List ℕ) :
    ∀ ch ∈ (generateReportId bytes).toList, ch ∈ hexCharsList := by
  intro ch hch
  have hmem : ch ∈ (bytes.map byteToHexChars).flatten := hch
  rcases List.mem_flatten.mp hmem with ⟨l, hl, hcl⟩
  rcases List.mem_map.mp hl with ⟨b, _, rfl⟩
  simp only [byteToHexChars, List.mem_cons, List.not_mem_nil, or_false] at hcl
  rcases hcl with rfl | rfl <;> exact hexDigitChar_mem _

lemma extractById_none_iff (rid : String) (l : List Report) :
    extractById rid l = none ↔ ∀ r ∈ l, r.id ≠ rid := by
  induction l with
  | nil => simp [extractById]
  | cons r rest ih =>
    simp only [extractById]
    by_cases h : r.id = rid
    · simp [h]
    · rcases hE : extractById rid rest with _ | ⟨x, l2⟩ <;>
        simp_all [h, hE]

lemma extractById_some (rid : String) : ∀ (l : List Report) (r : Report)
    (rest : List Report), extractById rid l = some (r, rest) →
    r.id = rid ∧ r ∈ l ∧ ∀ x ∈ rest, x ∈ l := by
  intro l
  induction l with
  | nil => intro r rest h; simp [extractById] at h
  | cons y ys ih =>
    intro r rest h
    simp only [extractById] at h
    by_cases hy : y.id = rid
    · rw [if_pos hy] at h
      have heq := Option.some.inj h
      have h1 : y = r := congrArg Prod.fst heq
      have h2 : ys = rest := congrArg Prod.snd heq
      subst h1; subst h2
      exact ⟨hy, List.mem_cons_self .., fun x hx => List.mem_cons_of_mem _ hx⟩
    · rw [if_neg hy] at h
      rcases hE : extractById rid ys with _ | p
      · rw [hE] at h; cases h
      · obtain ⟨x, l2⟩ := p
        rw [hE] at h
        have heq := Option.some.inj h
        have h1 : x = r := congrArg Prod.fst heq
        have h2 : y :: l2 = rest := congrArg Prod.snd heq
        subst h2
        obtain ⟨hid, hmem, hsub⟩ := ih x l2 hE
        rw [h1] at hid hmem
        refine ⟨hid, List.mem_cons_of_mem _ hmem, ?_⟩
        intro z hz
        rcases List.mem_cons.mp hz with rfl | hz
        · exact List.mem_cons_self ..
        · exact List.mem_cons_of_mem _ (hsub z hz)

lemma tryHashes_true_iff (compare : String → String → Except String Bool)
    (pwd : String) (l : List String) :
    (tryHashes compare pwd l).1 = true ↔ ∃ h ∈ l, compare pwd h = .ok true := by
  induction l with
  | nil => simp [tryHashes]
  | cons h t ih =>
    simp only [tryHashes]
    rcases hc : compare pwd h with e | b
    · simp [hc, ih]
    · cases b
      · simp [hc, ih]
      · simp [hc]

lemma action_guard_neg (rid dec : String) (hrid : rid ≠ "")
    (hdec : dec = "approved" ∨ dec = "denied") :
    ¬(jsTruthy (JSValue.str rid) = false ∨ jsTruthy (JSValue.str dec) = false ∨
      (JSValue.str dec ≠ JSValue.str "approved" ∧ JSValue.str dec ≠ JSValue.str "denied")) := by
  intro hcond
  rcases hcond with h | h | h
  · exact hrid (not_not.mp (of_decide_eq_false h))
  · rcases hdec with rfl | rfl <;> exact absurd h (by decide)
  · rcases hdec with rfl | rfl
    · exact h.1 rfl
    · exact h.2 rfl

lemma actionHandler_found_approved (cfg : Config) (wh : FetchOutcome) (gh : GitHubEnv)
    (s : ServerState) (rid now : String) (r : Report) (rest : List Report)
    (hrid : rid ≠ "") (hx : extractById rid s.reports = some (r, rest)) :
    actionHandler (.str rid) (.str "approved") now cfg wh gh s =
      { response := .ok "Report approved successfull!"
        state := ⟨rest, s.actionedReports ++
          [{ r with status := "approved", actionedAt := some now }]⟩
        calls := [.fireWebhookCall
            (approvedActionMsg { r with status := "approved", actionedAt := some now })
            cfg.ACTIONS_WEBHOOK false,
          .syncBanListCall { r with status := "approved", actionedAt := some now } true]
        logs := fireWebhook
            (approvedActionMsg { r with status := "approved", actionedAt := some now })
            cfg.ACTIONS_WEBHOOK wh ++
          (addToGitHubBanList cfg gh now
            { r with status := "approved", actionedAt := some now }).1 } := by
  unfold actionHandler
  rw [if_neg (action_guard_neg rid "approved" hrid (Or.inl rfl))]
  simp [hx, jsStrVal]

lemma actionHandler_found_denied (cfg : Config) (wh : FetchOutcome) (gh : GitHubEnv)
    (s : ServerState) (rid now : String) (r : Report) (rest : List Report)
    (hrid : rid ≠ "") (hx : extractById rid s.reports = some (r, rest)) :
    actionHandler (.str rid) (.str "denied") now cfg wh gh s =
      { response := .ok "Report denied successfull!"
        state := ⟨rest, s.actionedReports ++
          [{ r with status := "denied", actionedAt := some now }]⟩
        calls := [.fireWebhookCall
            (deniedActionMsg { r with status := "denied", actionedAt := some now })
            cfg.ACTIONS_WEBHOOK false]
        logs := fireWebhook
            (deniedActionMsg { r with status := "denied", actionedAt := some now })
            cfg.ACTIONS_WEBHOOK wh } := by
  unfold actionHandler
  rw [if_neg (action_guard_neg rid "denied" hrid (Or.inr rfl))]
  simp [hx, jsStrVal]

lemma actionHandler_notFound (cfg : Config) (wh : FetchOutcome) (gh : GitHubEnv)
    (s : ServerState) (rid dec now : String) (hrid : rid ≠ "")
    (hdec : dec = "approved" ∨ dec = "denied")
    (hnone : extractById rid s.reports = none) :
    actionHandler (.str rid) (.str dec) now cfg wh gh s =
      ⟨.notFound "Report not found!", s, [], []⟩ := by
  unfold actionHandler
  rw [if_neg (action_guard_neg rid dec hrid hdec)]
  simp [hnone]

lemma submitHandler_state_inv (t r c rsn : JSValue) (newId ts ip : String)
    (cfg : Config) (wh : FetchOutcome) (s : ServerState) (hInv : StoreInv s) :
    StoreInv (submitHandler t r c rsn newId ts ip cfg wh s).state := by
  unfold submitHandler
  by_cases h1 : submitMissingFields t r c
  · rw [if_pos h1]; exact hInv
  · rw [if_neg h1]
    by_cases h2 : submitInvalidTypes t r c
    · rw [if_pos h2]; exact hInv
    · rw [if_neg h2]
      cases rsn with
      | str rs =>
        constructor
        · intro x hx
          rcases List.mem_append.mp hx with hx | hx
          · exact hInv.1 x hx
          · have hx' := List.mem_singleton.mp hx
            subst hx'
            exact ⟨rfl, rfl⟩
        · intro x hx
          exact hInv.2 x hx
      | undefined => exact hInv
      | null => exact hInv
      | bool b => exact hInv
      | num n => exact hInv

lemma actionHandler_state_inv (rid act : JSValue) (now : String) (cfg : Config)
    (wh : FetchOutcome) (gh : GitHubEnv) (s : ServerState) (hInv : StoreInv s) :
    StoreInv (actionHandler rid act now cfg wh gh s).state := by
  unfold actionHandler
  by_cases hg : jsTruthy rid = false ∨ jsTruthy act = false ∨
      (act ≠ JSValue.str "approved" ∧ act ≠ JSValue.str "denied")
  · rw [if_pos hg]; exact hInv
  · rw [if_neg hg]
    have hact : act = JSValue.str "approved" ∨ act = JSValue.str "denied" := by
      by_contra hcon
      push_neg at hcon
      exact hg (Or.inr (Or.inr hcon))
    cases rid with
    | undefined => exact hInv
    | null => exact hInv
    | bool b => exact hInv
    | num n => exact hInv
    | str rid' =>
      rcases hE : extractById rid' s.reports with _ | p
      · simp only [hE]; exact hInv
      · obtain ⟨r, rest⟩ := p
        simp only [hE]
        obtain ⟨hid, hmem, hsub⟩ := extractById_some rid' s.reports r rest hE
        have hrest : ∀ x ∈ rest, x.status = "pending" ∧ x.actionedAt = none :=
          fun x hx => hInv.1 x (hsub x hx)
        have hr' : ∀ st : String, st = "approved" ∨ st = "denied" →
            StoreInv ⟨rest, s.actionedReports ++
              [{ r with status := st, actionedAt := some now }]⟩ := by
          intro st hst
          constructor
          · exact hrest
          · intro x hx
            rcases List.mem_append.mp hx with hx | hx
            · exact hInv.2 x hx
            · have hx' := List.mem_singleton.mp hx
              subst hx'
              rcases hst with rfl | rfl
              · exact ⟨by simp, by simp⟩
              · exact ⟨by simp, by simp⟩
        have hdec2 : jsStrVal act = "approved" ∨ jsStrVal act = "denied" := by
          rcases hact with rfl | rfl <;> simp [jsStrVal]
        rcases hdec2 with h | h <;> rw [h]
        · rw [if_pos rfl]
          exact hr' "approved" (Or.inl rfl)
        · rw [if_neg (by decide)]
          exact hr' "denied" (Or.inr rfl)

lemma stepInv {cfg : Config} {s s' : ServerState} (hInv : StoreInv s)
    (hstep : Step cfg s s') : StoreInv s' := by
  cases hstep with
  | submit t r c rsn newId ts ip wh s =>
    exact submitHandler_state_inv t r c rsn newId ts ip cfg wh s hInv
  | act reportId action now wh gh s =>
    exact actionHandler_state_inv reportId action now cfg wh gh s hInv

lemma reachable_inv {cfg : Config} {s : ServerState} (h : Reachable cfg s) :
    StoreInv s := by
  induction h with
  | init => exact ⟨by simp, by simp⟩
  | step _ hstep ih => exact stepInv ih hstep

lemma step_actioned_mono {cfg : Config} {s s' : ServerState} (hstep : Step cfg s s') :
    ∀ r ∈ s.actionedReports, r ∈ s'.actionedReports := by
  cases hstep with
  | submit t rr c rsn newId ts ip wh s =>
    intro r hr
    unfold submitHandler
    by_cases h1 : submitMissingFields t rr c
    · rw [if_pos h1]; exact hr
    · rw [if_neg h1]
      by_cases h2 : submitInvalidTypes t rr c
      · rw [if_pos h2]; exact hr
      · rw [if_neg h2]
        cases rsn <;> exact hr
  | act reportId action now wh gh s =>
    intro r hr
    unfold actionHandler
    by_cases hg : jsTruthy reportId = false ∨ jsTruthy action = false ∨
        (action ≠ JSValue.str "approved" ∧ action ≠ JSValue.str "denied")
    · rw [if_pos hg]; exact hr
    · rw [if_neg hg]
      cases reportId with
      | undefined => exact hr
      | null => exact hr
      | bool b => exact hr
      | num n => exact hr
      | str rid' =>
        rcases hE : extractById rid' s.reports with _ | p
        · simp only [hE]; exact hr
        · obtain ⟨x, rest⟩ := p
          simp only [hE]
          by_cases hd : jsStrVal action = "approved"
          · rw [if_pos hd]; exact List.mem_append_left _ hr
          · rw [if_neg hd]; exact List.mem_append_left _ hr

lemma submitHandler_isBadRequest_iff (t r c rsn : JSValue) (newId ts ip : String)
    (cfg : Config) (wh : FetchOutcome) (s : ServerState) :
    (submitHandler t r c rsn newId ts ip cfg wh s).response.isBadRequest = true ↔
      (submitMissingFields t r c ∨ submitInvalidTypes t r c) := by
  unfold submitHandler
  by_cases h1 : submitMissingFields t r c
  · simp [h1, SubmitResult.isBadRequest]
  · by_cases h2 : submitInvalidTypes t r c
    · simp [h1, h2, SubmitResult.isBadRequest]
    · rw [if_neg h1, if_neg h2]
      cases rsn <;> simp [h1, h2, SubmitResult.isBadRequest]

lemma submitHandler_badRequest_unchanged (t r c rsn : JSValue) (newId ts ip : String)
    (cfg : Config) (wh : FetchOutcome) (s : ServerState)
    (hbad : (submitHandler t r c rsn newId ts ip cfg wh s).response.isBadRequest = true) :
    (submitHandler t r c rsn newId ts ip cfg wh s).state = s ∧
    (submitHandler t r c rsn newId ts ip cfg wh s).calls = [] := by
  unfold submitHandler at hbad ⊢
  by_cases h1 : submitMissingFields t r c
  · rw [if_pos h1]; exact ⟨rfl, rfl⟩
  · rw [if_neg h1] at hbad ⊢
    by_cases h2 : submitInvalidTypes t r c
    · rw [if_pos h2]; exact ⟨rfl, rfl⟩
    · rw [if_neg h2] at hbad ⊢
      cases rsn <;> simp_all [SubmitResult.isBadRequest]

lemma submit_guard_iff (t r c : JSValue) :
    (submitMissingFields t r c ∨ submitInvalidTypes t r c) ↔
      (t = .undefined ∨ t = .null ∨ r = .undefined ∨ r = .null ∨
       c = .undefined ∨ c = .str "" ∨
       jsIsNaN (toNumber t) = true ∨ jsIsNaN (toNumber r) = true ∨
       isString c = false) := by
  unfold submitMissingFields submitInvalidTypes
  cases c <;> simp [jsTruthy, isString] <;> tauto

/-- Fixture: the default configuration (GitHub integration off, no
webhook URLs configured). -/
def cfgEx : Config :=
  { GITHUB_ENABLED := false, GITHUB_TOKEN := "", REPORTS_WEBHOOK := ""
    ACTIONS_WEBHOOK := "", baseUrl := "http://localhost:3000" }

/-- Fixture: a configuration with the GitHub integration enabled. -/
def cfgOn : Config :=
  { GITHUB_ENABLED := true, GITHUB_TOKEN := "tok", REPORTS_WEBHOOK := "https://r.example"
    ACTIONS_WEBHOOK := "https://a.example", baseUrl := "http://localhost:3000" }

/-- Fixture: a webhook delivery that succeeds. -/
def whEx : FetchOutcome := .ok2xx

/-- Fixture: a GitHub round trip where the document does not exist yet
and the commit succeeds. -/
def ghEx : GitHubEnv :=
  { getContent := .error "HttpError: Not Found", parseBanned := .ok none, putResult := .ok () }

/-- Fixture: a GitHub round trip whose conditional write is rejected. -/
def ghErrEx : GitHubEnv :=
  { getContent := .ok ("{}", "sha0"), parseBanned := .ok none
    putResult := .error "HttpError: 409 Conflict" }

/-- Fixture: the report produced by submitting
`{target: 42, reporter: 7, context: "spam", reason: "scamming"}`. -/
def rEx : Report :=
  { id := "deadbeef00000000", target := .finite 42, reporter := .finite 7
    context := "spam", reason := "scamming", timestamp := "2026-01-01T00:00:00.000Z"
    ip := "203.0.113.5", status := "pending", actionedAt := none }

/-- Fixture: the store holding exactly the pending report `rEx`. -/
def sEx : ServerState := ⟨[rEx], []⟩

lemma sEx_reachable : Reachable cfgEx sEx := by
  have h1 := @Step.submit cfgEx (.num (.finite 42)) (.num (.finite 7))
    (.str "spam") (.str "scamming") "deadbeef00000000" "2026-01-01T00:00:00.000Z"
    "203.0.113.5" whEx ⟨[], []⟩
  have he : (submitHandler (.num (.finite 42)) (.num (.finite 7)) (.str "spam")
      (.str "scamming") "deadbeef00000000" "2026-01-01T00:00:00.000Z" "203.0.113.5"
      cfgEx whEx ⟨[], []⟩).state = sEx := by decide
  rw [he] at h1
  exact Reachable.step Reachable.init h1

/-- C1: for a decision in `{approved, denied}` and a report id (report ids
are nonempty): if the id is in the pending collection, `POST /api/action`
returns success, sets the (first matching) report's status to the decision
and its `actionedAt` to the current time, removes it from the pending
collection and appends it to the actioned collection; if no pending report
has the id — including an id that was already actioned — it returns the
404 `NotFoundError` and changes neither collection. -/
theorem action_pending_moves (cfg : Config) (wh : FetchOutcome) (gh : GitHubEnv)
    (s : ServerState) (rid dec now : String)
    (hdec : dec = "approved" ∨ dec = "denied") (hrid : rid ≠ "") :
    (∀ r rest, extractById rid s.reports = some (r, rest) →
      (actionHandler (.str rid) (.str dec) now cfg wh gh s).response =
          .ok ("Report " ++ dec ++ " successfull!") ∧
      (actionHandler (.str rid) (.str dec) now cfg wh gh s).state.reports = rest ∧
      (actionHandler (.str rid) (.str dec) now cfg wh gh s).state.actionedReports =
          s.actionedReports ++ [{ r with status := dec, actionedAt := some now }]) ∧
    ((∃ r ∈ s.reports, r.id = rid) → (extractById rid s.reports).isSome = true) ∧
    (extractById rid s.reports = none →
      (actionHandler (.str rid) (.str dec) now cfg wh gh s).response =
          .notFound "Report not found!" ∧
      (actionHandler (.str rid) (.str dec) now cfg wh gh s).state = s) := by
  refine ⟨?_, ?_, ?_⟩
  · intro r rest hx
    rcases hdec with rfl | rfl
    · rw [actionHandler_found_approved cfg wh gh s rid now r rest hrid hx]
      exact ⟨rfl, rfl, rfl⟩
    · rw [actionHandler_found_denied cfg wh gh s rid now r rest hrid hx]
      exact ⟨rfl, rfl, rfl⟩
  · rintro ⟨r, hr, hid⟩
    rcases hE : extractById rid s.reports with _ | p
    · exact absurd hid ((extractById_none_iff rid s.reports).mp hE r hr)
    · rfl
  · intro hnone
    rw [actionHandler_notFound cfg wh gh s rid dec now hrid hdec hnone]
    exact ⟨rfl, rfl⟩

/-- Witness for C1: approving the one pending fixture report succeeds and
moves it, actioned, into the actioned collection. -/
theorem action_pending_moves_w :
    ((actionHandler (.str "deadbeef00000000") (.str "approved")
        "2026-01-01T00:05:00.000Z" cfgEx whEx ghEx sEx).response =
      .ok "Report approved successfull!") ∧
    ((actionHandler (.str "deadbeef00000000") (.str "approved")
        "2026-01-01T00:05:00.000Z" cfgEx whEx ghEx sEx).state.reports = []) ∧
    ((actionHandler (.str "deadbeef00000000") (.str "approved")
        "2026-01-01T00:05:00.000Z" cfgEx whEx ghEx sEx).state.actionedReports =
      [{ rEx with status := "approved", actionedAt := some "2026-01-01T00:05:00.000Z" }]) := by
  have h := (action_pending_moves cfgEx whEx ghEx sEx "deadbeef00000000" "approved"
    "2026-01-01T00:05:00.000Z" (Or.inl rfl) (by decide)).1 rEx [] (by decide)
  exact ⟨h.1, h.2.1, h.2.2⟩

/-- C2: every state reachable from the empty store satisfies: pending
reports are untouched (`status = "pending"`, no action timestamp);
actioned reports have a terminal status and a populated `actionedAt`; no
report is in both collections (so each report lives in exactly one of the
two); and every further step keeps each actioned report in the actioned
collection and out of the pending collection (transitions are one-way). -/
theorem reachable_store_invariants (cfg : Config) (s : ServerState)
    (h : Reachable cfg s) :
    (∀ r ∈ s.reports, r.status = "pending" ∧ r.actionedAt = none) ∧
    (∀ r ∈ s.actionedReports, r.status ≠ "pending" ∧ r.actionedAt ≠ none) ∧
    (∀ r : Report, ¬(r ∈ s.reports ∧ r ∈ s.actionedReports)) ∧
    (∀ s' : ServerState, Step cfg s s' →
      ∀ r ∈ s.actionedReports, r ∈ s'.actionedReports ∧ r ∉ s'.reports) := by
  have hInv := reachable_inv h
  refine ⟨hInv.1, hInv.2, ?_, ?_⟩
  · rintro r ⟨hp, ha⟩
    exact (hInv.2 r ha).1 (hInv.1 r hp).1
  · intro s' hstep r hr
    refine ⟨step_actioned_mono hstep r hr, ?_⟩
    intro hr'
    have hInv' := stepInv hInv hstep
    exact (hInv.2 r hr).1 (hInv'.1 r hr').1

/-- Witness for C2 at a concrete reachable state (one submitted report). -/
theorem reachable_store_invariants_w :
    (∀ r ∈ sEx.reports, r.status = "pending" ∧ r.actionedAt = none) ∧
    (∀ r ∈ sEx.actionedReports, r.status ≠ "pending" ∧ r.actionedAt ≠ none) ∧
    (∀ r : Report, ¬(r ∈ sEx.reports ∧ r ∈ sEx.actionedReports)) ∧
    (∀ s' : ServerState, Step cfgEx sEx s' →
      ∀ r ∈ sEx.actionedReports, r ∈ s'.actionedReports ∧ r ∉ s'.reports) :=
  reachable_store_invariants cfgEx sEx sEx_reachable

/-- C5: on a successful action, the ban-list synchronizer is invoked
exactly once, with the freshly actioned report, iff the decision is
`approved`; a denied decision triggers no synchronization at all. -/
theorem action_sync_iff_approved (cfg : Config) (wh : FetchOutcome) (gh : GitHubEnv)
    (s : ServerState) (rid dec now : String) (r : Report) (rest : List Report)
    (hdec : dec = "approved" ∨ dec = "denied") (hrid : rid ≠ "")
    (hx : extractById rid s.reports = some (r, rest)) :
    ((actionHandler (.str rid) (.str dec) now cfg wh gh s).calls.filter Effect.isSyncCall =
        [Effect.syncBanListCall { r with status := dec, actionedAt := some now } true] ↔
      dec = "approved") ∧
    (dec = "denied" →
      (actionHandler (.str rid) (.str dec) now cfg wh gh s).calls.filter
        Effect.isSyncCall = []) := by
  rcases hdec with rfl | rfl
  · rw [actionHandler_found_approved cfg wh gh s rid now r rest hrid hx]
    exact ⟨iff_of_true (by simp [Effect.isSyncCall]) rfl, fun hd => absurd hd (by decide)⟩
  · rw [actionHandler_found_denied cfg wh gh s rid now r rest hrid hx]
    refine ⟨⟨fun hfil => ?_, fun hd => absurd hd (by decide)⟩, fun _ => by
      simp [Effect.isSyncCall]⟩
    simp [Effect.isSyncCall] at hfil

/-- Witness for C5: approving the fixture report syncs exactly once with
the actioned report; denying it performs no synchronization. -/
theorem action_sync_iff_approved_w :
    ((actionHandler (.str "deadbeef00000000") (.str "approved") "T" cfgEx whEx ghEx
        sEx).calls.filter Effect.isSyncCall =
      [Effect.syncBanListCall { rEx with status := "approved", actionedAt := some "T" } true]) ∧
    ((actionHandler (.str "deadbeef00000000") (.str "denied") "T" cfgEx whEx ghEx
        sEx).calls.filter Effect.isSyncCall = []) :=
  ⟨((action_sync_iff_approved cfgEx whEx ghEx sEx "deadbeef00000000" "approved" "T" rEx []
      (Or.inl rfl) (by decide) (by decide)).1).mpr rfl,
   (action_sync_iff_approved cfgEx whEx ghEx sEx "deadbeef00000000" "denied" "T" rEx []
      (Or.inr rfl) (by decide) (by decide)).2 rfl⟩

/-- C7 counterexample: the claim says both background tasks are detached,
but in the approved branch the ban-list synchronization is `await`ed
before the response is sent, so not every recorded call is detached. -/
theorem action_sync_detached_cex :
    ((actionHandler (.str "deadbeef00000000") (.str "approved")
        "2026-01-01T00:05:00.000Z" cfgEx whEx ghEx sEx).calls.all
      (fun e => !e.isAwaited)) = false := by decide

/-- C7 (amended): the notification dispatch is detached (no webhook call
is awaited) and the response value is determinable without the ban-list
sync's outcome (it is the same for every GitHub round-trip outcome), but
the ban-list synchronization triggered by an approval is `await`ed: the
response is sent only after it completes. -/
theorem action_call_await_modes (cfg : Config) (wh : FetchOutcome) (gh gh' : GitHubEnv)
    (s : ServerState) (rid dec now : String) (r : Report) (rest : List Report)
    (hdec : dec = "approved" ∨ dec = "denied") (hrid : rid ≠ "")
    (hx : extractById rid s.reports = some (r, rest)) :
    (∀ e ∈ (actionHandler (.str rid) (.str dec) now cfg wh gh s).calls,
        e.isWebhookCall = true → e.isAwaited = false) ∧
    (dec = "approved" →
      (actionHandler (.str rid) (.str dec) now cfg wh gh s).calls =
        [.fireWebhookCall (approvedActionMsg { r with status := dec, actionedAt := some now })
            cfg.ACTIONS_WEBHOOK false,
         .syncBanListCall { r with status := dec, actionedAt := some now } true]) ∧
    (dec = "denied" →
      (actionHandler (.str rid) (.str dec) now cfg wh gh s).calls =
        [.fireWebhookCall (deniedActionMsg { r with status := dec, actionedAt := some now })
            cfg.ACTIONS_WEBHOOK false]) ∧
    ((actionHandler (.str rid) (.str dec) now cfg wh gh s).response =
      (actionHandler (.str rid) (.str dec) now cfg wh gh' s).response) := by
  rcases hdec with rfl | rfl
  · rw [actionHandler_found_approved cfg wh gh s rid now r rest hrid hx,
      actionHandler_found_approved cfg wh gh' s rid now r rest hrid hx]
    refine ⟨?_, fun _ => rfl, fun hd => absurd hd (by decide), rfl⟩
    intro e he
    simp only [List.mem_cons, List.not_mem_nil, or_false] at he
    rcases he with rfl | rfl
    · intro _; rfl
    · intro hw; simp [Effect.isWebhookCall] at hw
  · rw [actionHandler_found_denied cfg wh gh s rid now r rest hrid hx,
      actionHandler_found_denied cfg wh gh' s rid now r rest hrid hx]
    refine ⟨?_, fun hd => absurd hd (by decide), fun _ => rfl, rfl⟩
    intro e he
    simp only [List.mem_cons, List.not_mem_nil, or_false] at he
    rcases he with rfl
    intro _; rfl

/-- Witness for C7 (amended) at the concrete store, across two different
GitHub outcomes (successful commit vs rejected commit). -/
theorem action_call_await_modes_w :
    (∀ e ∈ (actionHandler (.str "deadbeef00000000") (.str "approved") "T" cfgEx whEx ghEx
        sEx).calls, e.isWebhookCall = true → e.isAwaited = false) ∧
    ("approved" = "approved" →
      (actionHandler (.str "deadbeef00000000") (.str "approved") "T" cfgEx whEx ghEx
          sEx).calls =
        [.fireWebhookCall
            (approvedActionMsg { rEx with status := "approved", actionedAt := some "T" })
            cfgEx.ACTIONS_WEBHOOK false,
         .syncBanListCall { rEx with status := "approved", actionedAt := some "T" } true]) ∧
    ("approved" = "denied" →
      (actionHandler (.str "deadbeef00000000") (.str "approved") "T" cfgEx whEx ghEx
          sEx).calls =
        [.fireWebhookCall
            (deniedActionMsg { rEx with status := "approved", actionedAt := some "T" })
            cfgEx.ACTIONS_WEBHOOK false]) ∧
    ((actionHandler (.str "deadbeef00000000") (.str "approved") "T" cfgEx whEx ghEx
        sEx).response =
      (actionHandler (.str "deadbeef00000000") (.str "approved") "T" cfgEx whEx ghErrEx
        sEx).response) :=
  action_call_await_modes cfgEx whEx ghEx ghErrEx sEx "deadbeef00000000" "approved" "T"
    rEx [] (Or.inl rfl) (by decide) (by decide)

/-- C9 (a defect the spec flags): the notification text of the denied
branch is character-for-character the approved branch's text (both headed
`**Approved**`), so the message does not distinguish approval from
denial; concretely, denying the pending fixture report fires exactly the
approved-branch message. -/
theorem action_messages_conflated :
    (∀ r : Report, deniedActionMsg r = approvedActionMsg r) ∧
    ((actionHandler (.str "deadbeef00000000") (.str "denied")
        "2026-01-01T00:05:00.000Z" cfgEx whEx ghEx sEx).calls =
      [.fireWebhookCall
        (approvedActionMsg
          { rEx with status := "denied", actionedAt := some "2026-01-01T00:05:00.000Z" })
        cfgEx.ACTIONS_WEBHOOK false]) :=
  ⟨fun _ => rfl, by decide⟩

/-- C3 counterexample: a target identifier that coerces to Infinity — not
a finite number (e.g. the body field `target: 1e999`, which `JSON.parse`
reads as the number Infinity) — is accepted: the handler returns 201, not
the 400 the claim requires for an identifier that does not coerce to a
finite number. -/
theorem submit_validation_cex :
    jsIsFinite (toNumber (JSValue.num JSNum.posInf)) = false ∧
    (submitHandler (.num .posInf) (.num (.finite 7)) (.str "spam") (.str "scamming")
        "deadbeef00000000" "2026-01-01T00:00:00.000Z" "203.0.113.5" cfgEx whEx
        ⟨[], []⟩).response.isBadRequest = false ∧
    (submitHandler (.num .posInf) (.num (.finite 7)) (.str "spam") (.str "scamming")
        "deadbeef00000000" "2026-01-01T00:00:00.000Z" "203.0.113.5" cfgEx whEx
        ⟨[], []⟩).response.isCreated = true := by
  exact ⟨rfl, by decide, by decide⟩

/-- C3 (amended): `POST /report` responds with the 400 `ValidationError`
iff target or reporter is missing or null, or context is missing or the
empty string, or either identifier coerces to NaN (the original claim
said "does not coerce to a finite number"; an identifier coercing to
Infinity passes the code's `isNaN` checks), or context is not a string;
in every such failure case the pending collection is unchanged and no
notification is fired. -/
theorem submit_validation_iff (t r c rsn : JSValue) (newId ts ip : String)
    (cfg : Config) (wh : FetchOutcome) (s : ServerState) :
    ((submitHandler t r c rsn newId ts ip cfg wh s).response.isBadRequest = true ↔
      (t = .undefined ∨ t = .null ∨ r = .undefined ∨ r = .null ∨
       c = .undefined ∨ c = .str "" ∨
       jsIsNaN (toNumber t) = true ∨ jsIsNaN (toNumber r) = true ∨
       isString c = false)) ∧
    ((submitHandler t r c rsn newId ts ip cfg wh s).response.isBadRequest = true →
      (submitHandler t r c rsn newId ts ip cfg wh s).state = s ∧
      (submitHandler t r c rsn newId ts ip cfg wh s).calls = []) :=
  ⟨(submitHandler_isBadRequest_iff t r c rsn newId ts ip cfg wh s).trans
      (submit_guard_iff t r c),
   submitHandler_badRequest_unchanged t r c rsn newId ts ip cfg wh s⟩

/-- Witness for C3 (amended): a missing target is rejected with 400 and
the store is unchanged. -/
theorem submit_validation_iff_w :
    (submitHandler .undefined (.num (.finite 7)) (.str "spam") (.str "x") "id0" "ts" "ip"
        cfgEx whEx sEx).response.isBadRequest = true ∧
    (submitHandler .undefined (.num (.finite 7)) (.str "spam") (.str "x") "id0" "ts" "ip"
        cfgEx whEx sEx).state = sEx :=
  ⟨((submit_validation_iff .undefined (.num (.finite 7)) (.str "spam") (.str "x") "id0"
      "ts" "ip" cfgEx whEx sEx).1).mpr (Or.inl rfl),
   ((submit_validation_iff .undefined (.num (.finite 7)) (.str "spam") (.str "x") "id0"
      "ts" "ip" cfgEx whEx sEx).2
     (((submit_validation_iff .undefined (.num (.finite 7)) (.str "spam") (.str "x") "id0"
        "ts" "ip" cfgEx whEx sEx).1).mpr (Or.inl rfl))).1⟩

/-- C4 counterexample: the submission `{target: 42, reporter: 7, context:
"spam"}` with the reason field absent passes validation but returns
neither 201 nor 400 — the handler throws at `reason.trim()` — and appends
nothing, refuting the claim that every validation-passing submission
returns 201. -/
theorem submit_valid_reason_cex :
    ¬ submitMissingFields (.num (.finite 42)) (.num (.finite 7)) (.str "spam") ∧
    ¬ submitInvalidTypes (.num (.finite 42)) (.num (.finite 7)) (.str "spam") ∧
    (submitHandler (.num (.finite 42)) (.num (.finite 7)) (.str "spam") .undefined
        "deadbeef00000000" "ts" "ip" cfgEx whEx ⟨[], []⟩).response.isCreated = false ∧
    (submitHandler (.num (.finite 42)) (.num (.finite 7)) (.str "spam") .undefined
        "deadbeef00000000" "ts" "ip" cfgEx whEx ⟨[], []⟩).response.isBadRequest = false ∧
    (submitHandler (.num (.finite 42)) (.num (.finite 7)) (.str "spam") .undefined
        "deadbeef00000000" "ts" "ip" cfgEx whEx ⟨[], []⟩).response.isThrown = true ∧
    (submitHandler (.num (.finite 42)) (.num (.finite 7)) (.str "spam") .undefined
        "deadbeef00000000" "ts" "ip" cfgEx whEx ⟨[], []⟩).state = ⟨[], []⟩ := by
  decide

/-- C4 (amended): for every submission that passes validation and whose
reason field is a string (the original claim omitted the reason
condition; see the counterexample), the handler returns 201 with the
generated id — 16 lowercase hexadecimal characters rendered from the 8
random bytes — and appends exactly one report, with `status = "pending"`,
the coerced numeric identifiers and trimmed context and reason, to the
end of the pending collection, which is exactly the pending order
`GET /api/reports` exposes to readers. -/
theorem submit_valid_appends (t r c : JSValue) (rs : String) (bytes : List ℕ)
    (ts ip : String) (cfg : Config) (wh : FetchOutcome) (s : ServerState)
    (h1 : ¬ submitMissingFields t r c) (h2 : ¬ submitInvalidTypes t r c)
    (hb : bytes.length = 8) :
    (submitHandler t r c (.str rs) (generateReportId bytes) ts ip cfg wh s).response =
      .created ("Report " ++ generateReportId bytes ++ " submitted successfully!")
        (generateReportId bytes) ∧
    (generateReportId bytes).length = 16 ∧
    (∀ ch ∈ (generateReportId bytes).toList, ch ∈ hexCharsList) ∧
    jsIsNaN (toNumber t) = false ∧ jsIsNaN (toNumber r) = false ∧
    apiReportsHandler
        (submitHandler t r c (.str rs) (generateReportId bytes) ts ip cfg wh s).state =
      (s.reports ++
        [{ id := generateReportId bytes, target := toNumber t, reporter := toNumber r,
           context := jsTrimStr (jsStrVal c), reason := jsTrimStr rs, timestamp := ts,
           ip := ip, status := "pending", actionedAt := none }], s.actionedReports) := by
  unfold submitInvalidTypes at h2
  push_neg at h2
  refine ⟨?_, ?_, generateReportId_hex bytes, ?_, ?_, ?_⟩
  · unfold submitHandler
    rw [if_neg h1, if_neg (by unfold submitInvalidTypes; push_neg; exact h2)]
  · rw [generateReportId_length bytes, hb]
  · exact Bool.eq_false_iff.mpr h2.1
  · exact Bool.eq_false_iff.mpr h2.2.1
  · unfold submitHandler
    rw [if_neg h1, if_neg (by unfold submitInvalidTypes; push_neg; exact h2)]
    rfl

/-- Witness for C4 (amended): submitting `{target: 42, reporter: 7,
context: "spam", reason: "scamming"}` with the random bytes
`de ad be ef 00 00 00 00` returns 201 with id `deadbeef00000000` and
appends exactly that pending report. -/
theorem submit_valid_appends_w :
    (submitHandler (.num (.finite 42)) (.num (.finite 7)) (.str "spam") (.str "scamming")
        (generateReportId [222, 173, 190, 239, 0, 0, 0, 0]) "2026-01-01T00:00:00.000Z"
        "203.0.113.5" cfgEx whEx ⟨[], []⟩).response =
      .created ("Report " ++ generateReportId [222, 173, 190, 239, 0, 0, 0, 0] ++
        " submitted successfully!") (generateReportId [222, 173, 190, 239, 0, 0, 0, 0]) ∧
    (generateReportId [222, 173, 190, 239, 0, 0, 0, 0]).length = 16 ∧
    (∀ ch ∈ (generateReportId [222, 173, 190, 239, 0, 0, 0, 0]).toList,
      ch ∈ hexCharsList) ∧
    jsIsNaN (toNumber (.num (.finite 42))) = false ∧
    jsIsNaN (toNumber (.num (.finite 7))) = false ∧
    apiReportsHandler
        (submitHandler (.num (.finite 42)) (.num (.finite 7)) (.str "spam")
          (.str "scamming") (generateReportId [222, 173, 190, 239, 0, 0, 0, 0])
          "2026-01-01T00:00:00.000Z" "203.0.113.5" cfgEx whEx ⟨[], []⟩).state =
      (([] : List Report) ++
        [{ id := generateReportId [222, 173, 190, 239, 0, 0, 0, 0],
           target := toNumber (.num (.finite 42)), reporter := toNumber (.num (.finite 7)),
           context := jsTrimStr (jsStrVal (.str "spam")), reason := jsTrimStr "scamming",
           timestamp := "2026-01-01T00:00:00.000Z", ip := "203.0.113.5",
           status := "pending", actionedAt := none }], ([] : List Report)) :=
  submit_valid_appends (.num (.finite 42)) (.num (.finite 7)) (.str "spam") "scamming"
    [222, 173, 190, 239, 0, 0, 0, 0] "2026-01-01T00:00:00.000Z" "203.0.113.5" cfgEx whEx
    ⟨[], []⟩ (by decide) (by decide) rfl

/-- C10: a submission whose target, reporter and context pass validation
but whose reason is absent or not a string returns neither 201 nor 400:
the handler throws a `TypeError` at `reason.trim()`, the pending
collection is unchanged and no notification is fired. -/
theorem submit_reason_nonstring_throws (t r c rsn : JSValue) (newId ts ip : String)
    (cfg : Config) (wh : FetchOutcome) (s : ServerState)
    (h1 : ¬ submitMissingFields t r c) (h2 : ¬ submitInvalidTypes t r c)
    (h3 : isString rsn = false) :
    (submitHandler t r c rsn newId ts ip cfg wh s).response =
      .thrown (reasonTrimError rsn) ∧
    (submitHandler t r c rsn newId ts ip cfg wh s).response.isCreated = false ∧
    (submitHandler t r c rsn newId ts ip cfg wh s).response.isBadRequest = false ∧
    (submitHandler t r c rsn newId ts ip cfg wh s).state = s ∧
    (submitHandler t r c rsn newId ts ip cfg wh s).calls = [] := by
  unfold submitHandler
  rw [if_neg h1, if_neg h2]
  cases rsn with
  | str rs => simp [isString] at h3
  | undefined => exact ⟨rfl, rfl, rfl, rfl, rfl⟩
  | null => exact ⟨rfl, rfl, rfl, rfl, rfl⟩
  | bool b => exact ⟨rfl, rfl, rfl, rfl, rfl⟩
  | num n => exact ⟨rfl, rfl, rfl, rfl, rfl⟩

/-- Witness for C10: a numeric reason field makes the otherwise valid
fixture submission throw, leaving the store untouched. -/
theorem submit_reason_nonstring_throws_w :
    (submitHandler (.num (.finite 42)) (.num (.finite 7)) (.str "spam") (.num (.finite 5))
        "id0" "ts" "ip" cfgEx whEx sEx).response =
      .thrown (reasonTrimError (.num (.finite 5))) ∧
    (submitHandler (.num (.finite 42)) (.num (.finite 7)) (.str "spam") (.num (.finite 5))
        "id0" "ts" "ip" cfgEx whEx sEx).response.isCreated = false ∧
    (submitHandler (.num (.finite 42)) (.num (.finite 7)) (.str "spam") (.num (.finite 5))
        "id0" "ts" "ip" cfgEx whEx sEx).response.isBadRequest = false ∧
    (submitHandler (.num (.finite 42)) (.num (.finite 7)) (.str "spam") (.num (.finite 5))
        "id0" "ts" "ip" cfgEx whEx sEx).state = sEx ∧
    (submitHandler (.num (.finite 42)) (.num (.finite 7)) (.str "spam") (.num (.finite 5))
        "id0" "ts" "ip" cfgEx whEx sEx).calls = [] :=
  submit_reason_nonstring_throws (.num (.finite 42)) (.num (.finite 7)) (.str "spam")
    (.num (.finite 5)) "id0" "ts" "ip" cfgEx whEx sEx (by decide) (by decide) rfl

/-- C6: failures arising inside the notification dispatcher or the
ban-list synchronizer are caught at their origin and logged only: a
thrown webhook error produces exactly the catch block's log lines (and
`fireWebhook` returns logs, never an error), a rejected commit produces
the outer catch's log line, and the HTTP response, resulting store state
and external calls of both handlers are identical for every webhook and
GitHub outcome. -/
theorem background_failures_isolated (cfg : Config) :
    (∀ t r c rsn : JSValue, ∀ newId ts ip : String, ∀ wh wh' : FetchOutcome,
      ∀ s : ServerState,
        (submitHandler t r c rsn newId ts ip cfg wh s).response =
          (submitHandler t r c rsn newId ts ip cfg wh' s).response ∧
        (submitHandler t r c rsn newId ts ip cfg wh s).state =
          (submitHandler t r c rsn newId ts ip cfg wh' s).state ∧
        (submitHandler t r c rsn newId ts ip cfg wh s).calls =
          (submitHandler t r c rsn newId ts ip cfg wh' s).calls) ∧
    (∀ rid act : JSValue, ∀ now : String, ∀ wh wh' : FetchOutcome, ∀ gh gh' : GitHubEnv,
      ∀ s : ServerState,
        (actionHandler rid act now cfg wh gh s).response =
          (actionHandler rid act now cfg wh' gh' s).response ∧
        (actionHandler rid act now cfg wh gh s).state =
          (actionHandler rid act now cfg wh' gh' s).state ∧
        (actionHandler rid act now cfg wh gh s).calls =
          (actionHandler rid act now cfg wh' gh' s).calls) ∧
    (∀ content url n m code : String,
        fireWebhook content url (.throwErr n m code) = webhookErrorLogs n m code) ∧
    (∀ gh : GitHubEnv, ∀ now : String, ∀ rd : Report, ∀ e : String,
        gh.putResult = .error e → cfg.GITHUB_ENABLED = true → hasOctokit cfg = true →
        (addToGitHubBanList cfg gh now rd).1 =
          (githubInnerFetch gh).2.2 ++ ["GitHub integration error: " ++ e]) := by
  refine ⟨?_, ?_, fun content url n m code => rfl, ?_⟩
  · intro t r c rsn newId ts ip wh wh' s
    by_cases h1 : submitMissingFields t r c
    · simp [submitHandler, h1]
    · by_cases h2 : submitInvalidTypes t r c
      · simp [submitHandler, h1, h2]
      · cases rsn <;> simp [submitHandler, h1, h2]
  · intro rid act now wh wh' gh gh' s
    by_cases hg : jsTruthy rid = false ∨ jsTruthy act = false ∨
        (act ≠ JSValue.str "approved" ∧ act ≠ JSValue.str "denied")
    · simp [actionHandler, hg]
    · cases rid with
      | str rid' =>
        rcases hE : extractById rid' s.reports with _ | p
        · simp [actionHandler, hg, hE]
        · obtain ⟨r, rest⟩ := p
          by_cases hd : jsStrVal act = "approved"
          · simp [actionHandler, hg, hE, hd]
          · simp [actionHandler, hg, hE, hd]
      | undefined => simp [actionHandler, hg]
      | null => simp [actionHandler, hg]
      | bool b => simp [actionHandler, hg]
      | num n => simp [actionHandler, hg]
  · intro gh now rd e hput hE hO
    unfold addToGitHubBanList
    simp [hE, hO, hput]

/-- Witness for C6: with the GitHub integration enabled and the commit
rejected by the version-token precondition, the synchronizer only logs
the outer catch's line. -/
theorem background_failures_isolated_w :
    (addToGitHubBanList cfgOn ghErrEx "T" rEx).1 =
      (githubInnerFetch ghErrEx).2.2 ++
        ["GitHub integration error: " ++ "HttpError: 409 Conflict"] :=
  (background_failures_isolated cfgOn).2.2.2 ghErrEx "T" rEx "HttpError: 409 Conflict"
    rfl rfl rfl

/-- C8: `ValidatePassword` returns true iff the candidate matches at
least one hash of the configured semicolon-delimited list under the
bcrypt primitive (`compare` returning `.ok true`; a comparison error is
caught and the loop continues); when the configuration is absent, or
contains no non-empty hash after splitting and trimming, it returns false
having attempted zero comparisons. -/
theorem validate_password_iff (lh : Option String)
    (compare : String → String → Except String Bool) (pwd : String) :
    ((ValidatePassword lh compare pwd).1 = true ↔
      ∃ h ∈ parsedHashes lh, compare pwd h = .ok true) ∧
    ((lh = none ∨ parsedHashes lh = []) → ValidatePassword lh compare pwd = (false, 0)) := by
  constructor
  · cases lh with
    | none => simp [ValidatePassword, parsedHashes]
    | some s =>
      by_cases hs : s = ""
      · subst hs
        simp [ValidatePassword, show parsedHashes (some "") = [] from rfl]
      · simp only [ValidatePassword]
        rw [if_neg hs]
        by_cases he : (parsedHashes (some s)).isEmpty
        · rw [if_pos he]
          have hemp : parsedHashes (some s) = [] := List.isEmpty_iff.mp he
          simp [hemp]
        · rw [if_neg he]
          exact tryHashes_true_iff compare pwd _
  · intro h
    rcases h with rfl | hE
    · rfl
    · cases lh with
      | none => rfl
      | some s =>
        by_cases hs : s = ""
        · subst hs; rfl
        · simp only [ValidatePassword]
          rw [if_neg hs, if_pos (List.isEmpty_iff.mpr hE)]

/-- Fixture: a bcrypt comparison table — comparing against the hash
`"ha"` errors (invalid hash, caught and skipped), the password `"pw"`
matches the hash `"hb"`, everything else mismatches. -/
def cmpEx : String → String → Except String Bool :=
  fun p h =>
    if h = "ha" then .error "Invalid hash"
    else if p = "pw" && h = "hb" then .ok true
    else .ok false

/-- Witness for C8: with two configured hashes (the first comparison
erroring, the second matching) the validator accepts `"pw"`; with the
variable unset, or set to semicolons and spaces only, it returns false
with zero comparisons attempted. -/
theorem validate_password_iff_w :
    (ValidatePassword (some "ha; hb") cmpEx "pw").1 = true ∧
    ValidatePassword none cmpEx "pw" = (false, 0) ∧
    ValidatePassword (some " ; ; ") cmpEx "pw" = (false, 0) :=
  ⟨(validate_password_iff (some "ha; hb") cmpEx "pw").1.mpr ⟨"hb", by decide, rfl⟩,
   (validate_password_iff none cmpEx "pw").2 (Or.inl rfl),
   (validate_password_iff (some " ; ; ") cmpEx "pw").2 (Or.inr (by decide))⟩
